import Mathlib

/-!
Verification development for the Shipping-schedule-processor repository
(src/schedule_processor.py and src/app.py).

The Python sources are shallowly embedded below.  Strings are modelled as
Lean `String`/`List Char`; Python's `re` patterns used by the code are
modelled by hand-rolled scanners that implement exactly the behaviour of the
concrete patterns appearing in the source (all of those patterns are
backtracking-free because adjacent greedy pieces use disjoint character
classes, so a direct left-to-right scan is an exact model).  `\d`, `[A-Z]`
and `\s` are modelled as ASCII digits, ASCII capitals and `Char.isWhitespace`
respectively.  Python cell values of `None` type are modelled by `Option`,
and exceptions by `Except`.
-/

/-- Whitespace test, modelling Python's `str.strip` / regex `\s` class. -/
def isWS (c : Char) : Bool := c.isWhitespace

/-- ASCII capital letter, modelling the regex class `[A-Z]`. -/
def isAZ (c : Char) : Bool := decide ('A' ≤ c) && decide (c ≤ 'Z')

/-- Strip whitespace from both ends of a character list (Python `str.strip()`). -/
def stripChars (cs : List Char) : List Char :=
  ((cs.dropWhile isWS).reverse.dropWhile isWS).reverse

/-- Substring test: `hasSub pat cs` is true iff `pat` occurs contiguously in
`cs`, modelling Python's `pat in s`. -/
def hasSub (pat : List Char) : List Char → Bool
  | [] => pat.isEmpty
  | c :: cs => pat.isPrefixOf (c :: cs) || hasSub pat cs

/-- Uppercasing of ASCII letters, modelling Python `str.upper()` on the ASCII
strings handled by this program. -/
def upperChars (cs : List Char) : List Char := cs.map Char.toUpper

/-- The canonical schedule record built by all three extractors
(the dict literals in schedule_processor.py). -/
structure Sched where
  carrier : String
  service : String
  vessel : String
  voyage : String
  etd : String
  eta : String
  transitTime : String
  tsPort : String
deriving DecidableEq, Repr

/-- Decide whether `[a, b]` are two ASCII digits, consume them
(the regex piece `\d\{2\}` -- two digits). -/
def twoDigits? : List Char → Option (Char × Char × List Char)
  | a :: b :: rest => if a.isDigit && b.isDigit then some (a, b, rest) else none
  | _ => none

/-- Consume a literal dash. -/
def dashThen : List Char → Option (List Char)
  | '-' :: r => some r
  | _ => none

/-- Consume a literal character-list as a required prefix. -/
def dropPre (pat : List Char) (cs : List Char) : Option (List Char) :=
  if pat.isPrefixOf cs then some (cs.drop pat.length) else none

/-- Attempt the COSCO date pattern at the head of the list:
Python regex `2026-\s*(\d\{2\})-\s*(\d\{2\})` from parse_cosco_pdf,
returning the `MM-DD` rendering `f"\x7bm.group(1)\x7d-\x7bm.group(2)\x7d"`. -/
def matchCoscoAt (cs : List Char) : Option (List Char) :=
  (dropPre "2026-".data cs).bind fun r1 =>
    (twoDigits? (r1.dropWhile isWS)).bind fun p1 =>
      (dashThen p1.2.2).bind fun r2 =>
        (twoDigits? (r2.dropWhile isWS)).map fun p2 =>
          [p1.1, p1.2.1, '-', p2.1, p2.2.1]

/-- Leftmost search for the COSCO date pattern (Python `re.search`). -/
def coscoSearch : List Char → Option (List Char)
  | [] => none
  | c :: cs =>
    match matchCoscoAt (c :: cs) with
    | some r => some r
    | none => coscoSearch cs

/-- A pdfplumber table cell: a string or `None`. -/
abbrev Cell := Option String

/-- Python `str()` of a cell value: `None` renders as `"None"`. -/
def cellStr : Cell → String
  | none => "None"
  | some s => s

/-- Python `str(cell).strip()` on a table cell. -/
def cellStrip (c : Cell) : List Char := stripChars (cellStr c).data

/-- Python `repr` of one cell as it appears inside `str(row)`: `None` bare,
strings in single quotes.  (Escaping inside the string is not rendered; the
cells this program inspects contain no quote or backslash characters, for
which `repr` is literal.) -/
def cellRepr : Cell → List Char
  | none => "None".data
  | some s => '\'' :: s.data ++ ['\'']

/-- Comma-space separated concatenation, as in Python's `str` of a list. -/
def joinComma : List (List Char) → List Char
  | [] => []
  | [x] => x
  | x :: y :: ys => x ++ ',' :: ' ' :: joinComma (y :: ys)

/-- Python `str(row)` for a row of cells: `"[...]"` with `repr` per element. -/
def rowStr (row : List Cell) : List Char :=
  '[' :: joinComma (row.map cellRepr) ++ [']']

/-- The header test of parse_cosco_pdf: `row and 'Service' in str(row)`. -/
def rowHasService (row : List Cell) : Bool :=
  !row.isEmpty && hasSub "Service".data (rowStr row)

/-- One pass of the COSCO data-row loop of parse_cosco_pdf starting at index
`i`, with `fuel` bounding the number of iterations (the loop advances `i` by
at least 1 each time, so `fuel = table.length` never runs out before the
`while i < len(table)` condition fails). -/
def coscoRowsAux (t : List (List Cell)) : Nat → Nat → List Sched
  | 0, _ => []
  | fuel + 1, i =>
    if i < t.length then
      let row1 := t.getD i []
      if row1.length < 10 then coscoRowsAux t fuel (i + 1)
      else
        let service := cellStrip (row1.getD 1 none)
        if service ≠ "HPX2".data then coscoRowsAux t fuel (i + 2)
        else
          let vessel := cellStrip (row1.getD 2 none)
          let voyage := cellStrip (row1.getD 3 none)
          let etd := (coscoSearch (cellStrip (row1.getD 6 none))).getD []
          let tsPort := cellStrip (row1.getD 8 none)
          let transit := if 12 < row1.length then cellStrip (row1.getD 12 none) else []
          let row2 := t.getD (i + 1) []
          let eta :=
            if 9 < row2.length then (coscoSearch (cellStrip (row2.getD 9 none))).getD []
            else []
          let emitted :=
            if vessel ≠ [] ∧ voyage ≠ [] ∧ etd ≠ [] then
              [⟨"COSCO", ⟨service⟩, ⟨vessel⟩, ⟨voyage⟩, ⟨etd⟩, ⟨eta⟩, ⟨transit⟩, ⟨tsPort⟩⟩]
            else []
          emitted ++ coscoRowsAux t fuel (i + 2)
    else []

/-- parse_cosco_pdf on a single extracted table: skip tables with fewer than
3 rows, find the header row containing the token `Service`, then consume data
rows pairwise from the row after the header. -/
def parse_cosco_table (t : List (List Cell)) : List Sched :=
  if t.length < 3 then []
  else
    match t.findIdx? rowHasService with
    | none => []
    | some h => coscoRowsAux t t.length (h + 1)

/-- parse_cosco_pdf: the per-page `extract_tables()` results are supplied,
flattened in page order, and each table contributes its records in order. -/
def parse_cosco_pdf (tables : List (List (List Cell))) : List Sched :=
  tables.flatMap parse_cosco_table

/-- Attempt the ONE transit-time anchor at the start of a (stripped) line:
Python regex `^(\d+)\s+DAY\(S\)` from parse_one_pdf; returns group 1. -/
def anchorDigits? (cs : List Char) : Option (List Char) :=
  let ds := cs.takeWhile Char.isDigit
  let r1 := cs.dropWhile Char.isDigit
  let ws := r1.takeWhile isWS
  let r2 := r1.dropWhile isWS
  if ds ≠ [] ∧ ws ≠ [] ∧ "DAY(S)".data.isPrefixOf r2 then some ds else none

/-- Vessel/voyage character class `[A-Z\s]` of the ONE vessel patterns. -/
def isVV (c : Char) : Bool := isAZ c || isWS c

/-- Full-to-end match of the group `(\s+\d+[A-Z]+)$`; returns the voyage text
after `strip()` (the leading whitespace dropped). -/
def g2Full? (cs : List Char) : Option (List Char) :=
  let ws := cs.takeWhile isWS
  let r1 := cs.dropWhile isWS
  let ds := r1.takeWhile Char.isDigit
  let r2 := r1.dropWhile Char.isDigit
  let us := r2.takeWhile isAZ
  let r3 := r2.dropWhile isAZ
  if ws ≠ [] ∧ ds ≠ [] ∧ us ≠ [] ∧ r3 = [] then some (ds ++ us) else none

/-- Lazy scan for the shortest non-empty `[A-Z\s]+?` group 1 whose remainder
matches `(\s+\d+[A-Z]+)$` -- the regex `^([A-Z\s]+?)(\s+\d+[A-Z]+)$` applied
to the line after a `Vessel / Voyage` label in parse_one_pdf. -/
def vvLazyFull (g1rev : List Char) : List Char → Option (List Char × List Char)
  | [] => none
  | c :: cs =>
    if isVV c then
      match g2Full? cs with
      | some v => some ((c :: g1rev).reverse, v)
      | none => vvLazyFull (c :: g1rev) cs
    else none

/-- The first vessel/voyage pattern of parse_one_pdf (full-line match). -/
def vvFull? (cs : List Char) : Option (List Char × List Char) := vvLazyFull [] cs

/-- Match of `(\s+\d+[A-Z]+)\s` at the start of the remainder (the fallback
pattern's tail: voyage group followed by one more whitespace character);
returns the voyage text after `strip()`. -/
def g2Ws? (cs : List Char) : Option (List Char) :=
  let ws := cs.takeWhile isWS
  let r1 := cs.dropWhile isWS
  let ds := r1.takeWhile Char.isDigit
  let r2 := r1.dropWhile Char.isDigit
  let us := r2.takeWhile isAZ
  let r3 := r2.dropWhile isAZ
  match r3 with
  | c :: _ => if ws ≠ [] ∧ ds ≠ [] ∧ us ≠ [] ∧ isWS c then some (ds ++ us) else none
  | [] => none

/-- Lazy scan for the fallback group 1 continuation `[A-Z\s]+?`. -/
def vvLazyPre (g1rev : List Char) : List Char → Option (List Char × List Char)
  | [] => none
  | c :: cs =>
    if isVV c then
      match g2Ws? cs with
      | some v => some ((c :: g1rev).reverse, v)
      | none => vvLazyPre (c :: g1rev) cs
    else none

/-- The fallback vessel/voyage pattern of parse_one_pdf:
`^([A-Z][A-Z\s]+?)(\s+\d+[A-Z]+)\s` matched at the start of a line. -/
def vvPre? (cs : List Char) : Option (List Char × List Char) :=
  match cs with
  | c :: rest => if isAZ c then vvLazyPre [c] rest else none
  | [] => none

/-- Attempt the ISO date pattern `(\d\{4\})-(\d\{2\})-(\d\{2\})` at the head of
the list; returns (month digits, day digits, remainder after the match). -/
def matchIsoAt (cs : List Char) : Option (List Char × List Char × List Char) :=
  (twoDigits? cs).bind fun p1 =>
    (twoDigits? p1.2.2).bind fun p2 =>
      (dashThen p2.2.2).bind fun r1 =>
        (twoDigits? r1).bind fun p3 =>
          (dashThen p3.2.2).bind fun r2 =>
            (twoDigits? r2).map fun p4 =>
              ([p3.1, p3.2.1], [p4.1, p4.2.1], p4.2.2)

/-- Left-to-right non-overlapping scan collecting every ISO date match
(Python `re.findall`); `fuel` bounds the number of steps (each step consumes
at least one character, so `fuel = cs.length` suffices). -/
def isoScan : Nat → List Char → List (List Char × List Char)
  | 0, _ => []
  | _ + 1, [] => []
  | fuel + 1, c :: cs =>
    match matchIsoAt (c :: cs) with
    | some (mm, dd, rest) => (mm, dd) :: isoScan fuel rest
    | none => isoScan fuel cs

/-- All ISO-date matches of a line, in order (`re.findall` of parse_one_pdf). -/
def isoFindAll (cs : List Char) : List (List Char × List Char) := isoScan cs.length cs

/-- Leftmost ISO-date match reduced to `MM-DD` (the `re.search` used by the
SITC text-date branch). -/
def isoFirst? : List Char → Option (List Char)
  | [] => none
  | c :: tl =>
    match matchIsoAt (c :: tl) with
    | some (mm, dd, _) => some (mm ++ '-' :: dd)
    | none => isoFirst? tl

/-- Remainder after the first occurrence of `pat` (for chaining the lazy
pieces of `Service.*?Origin.*?Destination`). -/
def subAfter? (pat : List Char) : List Char → Option (List Char)
  | [] => if pat.isEmpty then some [] else none
  | c :: tl =>
    if pat.isPrefixOf (c :: tl) then some ((c :: tl).drop pat.length)
    else subAfter? pat tl

/-- Python `re.search(r'Service.*?Origin.*?Destination', line)` succeeds. -/
def svcHeaderHit (cs : List Char) : Bool :=
  (((subAfter? "Service".data cs).bind (subAfter? "Origin".data)).bind
    (subAfter? "Destination".data)).isSome

/-- First whitespace-delimited token of a line (`line.split()` then `parts[0]`,
`None` when the split is empty). -/
def firstToken? (cs : List Char) : Option (List Char) :=
  let r := cs.dropWhile isWS
  if r.isEmpty then none else some (r.takeWhile (fun c => !isWS c))

/-- State accumulated over the 20-line marker window of parse_one_pdf. -/
structure OneState where
  etd : List Char
  eta : List Char
  ts : List Char
  svc : List Char
deriving Repr

/-- Render a found (month digits, day digits) pair as `MM-DD`. -/
def mmddOf (p : List Char × List Char) : List Char := p.1 ++ '-' :: p.2

/-- The `Origin Destination` check of the marker window: when the stripped
line equals the literal and a next line exists whose ISO-date matches number
at least 2, ETD and ETA are overwritten from the first two matches. -/
def oneStepDates (lines : List String) (st : OneState) (j : Nat) : OneState :=
  if stripChars (lines.getD j "").data = "Origin Destination".data ∧
      j + 1 < lines.length then
    if 2 ≤ (isoFindAll (stripChars (lines.getD (j + 1) "").data)).length then
      { st with
        etd := mmddOf ((isoFindAll (stripChars (lines.getD (j + 1) "").data)).getD 0 ([], [])),
        eta := mmddOf ((isoFindAll (stripChars (lines.getD (j + 1) "").data)).getD 1 ([], [])) }
    else st
  else st

/-- The `TRANSSHIPMENT` check of the marker window. -/
def oneStepTs (lines : List String) (st : OneState) (j : Nat) : OneState :=
  if stripChars (lines.getD j "").data = "TRANSSHIPMENT".data then
    { st with ts := "TRANSSHIPMENT".data }
  else st

/-- The service-header check of the marker window: the next line's first
token becomes the service when it is not a known non-service token and has
length at most 5. -/
def oneStepSvc (lines : List String) (st : OneState) (j : Nat) : OneState :=
  if svcHeaderHit (stripChars (lines.getD j "").data) ∧ j + 1 < lines.length then
    match firstToken? (stripChars (lines.getD (j + 1) "").data) with
    | some cand =>
      if cand ∉ ["CY".data, "Origin".data, "Destination".data] ∧ cand.length ≤ 5 then
        { st with svc := cand }
      else st
    | none => st
  else st

/-- One step of the marker window loop of parse_one_pdf at line index `j`:
the `Origin Destination` date pair, the `TRANSSHIPMENT` literal and the
service header are three independent sequential checks. -/
def oneStep (lines : List String) (st : OneState) (j : Nat) : OneState :=
  oneStepSvc lines (oneStepTs lines (oneStepDates lines st j) j) j

/-- The line indices `range(i, min(i+w, len))` of a bounded lookahead window. -/
def windowIdxs (i len w : Nat) : List Nat := List.range' i (min (i + w) len - i)

/-- The fallback vessel scan of parse_one_pdf: the first line in
`range(i, min(i+3, len))` matching the fallback vessel/voyage pattern. -/
def oneFallback (lines : List String) (i : Nat) : Option (List Char × List Char) :=
  (windowIdxs i lines.length 3).findSome? fun j =>
    vvPre? (stripChars (lines.getD j "").data)

/-- The first vessel/voyage attempt of one anchored entry: the label pattern
on the line after the anchor, when the anchor line carries the
`Vessel / Voyage` label. -/
def oneVV0 (lines : List String) (i : Nat) : List Char × List Char :=
  if hasSub "Vessel / Voyage".data (stripChars (lines.getD i "").data) ∧
      i + 1 < lines.length then
    match vvFull? (stripChars (lines.getD (i + 1) "").data) with
    | some (g1, g2) => (stripChars g1, g2)
    | none => ([], [])
  else ([], [])

/-- The vessel/voyage of one anchored entry after the fallback scan
(`if not vessel:` in parse_one_pdf). -/
def oneVV (lines : List String) (i : Nat) : List Char × List Char :=
  if (oneVV0 lines i).1 = [] then
    match oneFallback lines i with
    | some (g1, g2) => (stripChars g1, g2)
    | none => oneVV0 lines i
  else oneVV0 lines i

/-- The marker-window state of one anchored entry: the fold of the three
checks over `range(i, min(i+20, len(lines)))`. -/
def oneWindow (lines : List String) (i : Nat) : OneState :=
  (windowIdxs i lines.length 20).foldl (oneStep lines) ⟨[], [], [], []⟩

/-- Processing of one candidate anchor line of parse_one_pdf: if line `i`
starts with `(\d+)\s+DAY\(S\)`, extract the vessel/voyage (label pattern on
the next line, else fallback scan), fold the 20-line marker window, and emit
a record only when vessel, voyage and ETD are all non-empty. -/
def oneEntryAt (lines : List String) (i : Nat) : Option Sched :=
  match anchorDigits? (stripChars (lines.getD i "").data) with
  | none => none
  | some transit =>
    if (oneVV lines i).1 ≠ [] ∧ (oneVV lines i).2 ≠ [] ∧ (oneWindow lines i).etd ≠ [] then
      some ⟨"ONE", ⟨(oneWindow lines i).svc⟩, ⟨(oneVV lines i).1⟩, ⟨(oneVV lines i).2⟩,
        ⟨(oneWindow lines i).etd⟩, ⟨(oneWindow lines i).eta⟩, ⟨transit⟩,
        ⟨(oneWindow lines i).ts⟩⟩
    else none

/-- parse_one_pdf on the lines of one page: every line is tested as an anchor
(the outer loop advances one line at a time). -/
def parse_one_page (lines : List String) : List Sched :=
  (List.range lines.length).filterMap (oneEntryAt lines)

/-- parse_one_pdf: pages are supplied as their extracted text lines. -/
def parse_one_pdf (pages : List (List String)) : List Sched :=
  pages.flatMap parse_one_page

/-- The decimal digit character for `n % 10`. -/
def digitChar (n : Nat) : Char := Char.ofNat (48 + n % 10)

/-- Two-digit zero-padded rendering, as produced by `strftime` `%m` / `%d`
for values below 100 (the only values this program ever formats, see
`civilFromDays_bounds`). -/
def fmt2 (n : Nat) : List Char := [digitChar (n / 10), digitChar n]

/-- The `MM-DD` rendering `strftime("%m-%d")`. -/
def mmddStr (m d : Nat) : List Char := fmt2 m ++ '-' :: fmt2 d

/-- Days from 1970-01-01 to the Gregorian date y-m-d (a standard civil-date
formula; used to define the spreadsheet serial convention `day 0 =
1899-12-30` and to state the serial round-trip). -/
def daysFromCivil (y : Int) (m d : Nat) : Int :=
  let y' : Int := if m ≤ 2 then y - 1 else y
  let era : Int := y'.ediv 400
  let yoe : Nat := (y' - era * 400).toNat
  let mp : Nat := (m + 9) % 12
  let doy : Nat := (153 * mp + 2) / 5 + d - 1
  let doe : Nat := yoe * 365 + yoe / 4 - yoe / 100 + doy
  era * 146097 + (doe : Int) - 719468

/-- Gregorian date of day `z` counted from 1970-01-01 (the standard inverse
civil-date formula, modelling Python `datetime` day arithmetic). -/
def civilFromDays (z : Int) : Int × Nat × Nat :=
  let z' : Int := z + 719468
  let era : Int := z'.ediv 146097
  let doe : Nat := (z'.emod 146097).toNat
  let yoe : Nat := (doe - doe / 1460 + doe / 36524 - doe / 146096) / 365
  let doy : Nat := doe - (365 * yoe + yoe / 4 - yoe / 100)
  let mp : Nat := (5 * doy + 2) / 153
  let d : Nat := doy - (153 * mp + 2) / 5 + 1
  let m : Nat := if mp < 10 then mp + 3 else mp - 9
  let y : Int := (yoe : Int) + era * 400 + (if m ≤ 2 then 1 else 0)
  (y, m, d)

/-- Result of `datetime(1899, 12, 30) + timedelta(days=n)` in parse_sitc_excel:
`none` models the `OverflowError` Python raises when the resulting date falls
outside `datetime`'s supported years 1..9999. -/
def pyDateAdd? (n : Int) : Option (Nat × Nat) :=
  let c := civilFromDays (daysFromCivil 1899 12 30 + n)
  if 1 ≤ c.1 ∧ c.1 ≤ 9999 then some (c.2.1, c.2.2) else none

/-- A Python `datetime` value as stored in a spreadsheet cell: the month and
day fields of a constructed `datetime` always satisfy these bounds. -/
structure PyDate where
  y : Nat
  m : Nat
  d : Nat
  hm : 1 ≤ m ∧ m ≤ 12
  hd : 1 ≤ d ∧ d ≤ 31

/-- An openpyxl cell value: `None`, a string, an integer day-serial, or a
date/time value.  (Fractional spreadsheet serials are outside the model.) -/
inductive CellV where
  | cnone : CellV
  | cstr : String → CellV
  | cint : Int → CellV
  | cdate : PyDate → CellV

/-- Python truthiness of a cell value (`if value:`). -/
def pyTruthy : CellV → Bool
  | .cnone => false
  | .cstr s => !s.data.isEmpty
  | .cint n => n ≠ 0
  | .cdate _ => true

/-- Four-digit zero-padded year (for `str(datetime(...))`). -/
def fmt4 (n : Nat) : List Char :=
  [digitChar (n / 1000), digitChar (n / 100), digitChar (n / 10), digitChar n]

/-- Python `str()` of a cell value (`datetime` renders as
`YYYY-MM-DD 00:00:00` for the date-valued cells this program reads). -/
def pyStrV : CellV → String
  | .cnone => "None"
  | .cstr s => s
  | .cint n => toString n
  | .cdate dt => ⟨fmt4 dt.y ++ '-' :: fmt2 dt.m ++ '-' :: fmt2 dt.d ++ " 00:00:00".data⟩

/-- The SITC ETD/ETA normalization of parse_sitc_excel: falsy cells give
`""`; `datetime` values are formatted `%m-%d`; numeric values are treated as
day-serials from 1899-12-30 (raising, modelled `.error`, outside `datetime`'s
range); other values are searched for a contiguous `YYYY-MM-DD` substring. -/
def sitcNormDate : CellV → Except Unit String
  | .cnone => .ok ""
  | .cdate dt => .ok ⟨mmddStr dt.m dt.d⟩
  | .cint n =>
    if n = 0 then .ok ""
    else
      match pyDateAdd? n with
      | some (m, d) => .ok ⟨mmddStr m d⟩
      | none => .error ()
  | .cstr s =>
    if s.data.isEmpty then .ok ""
    else
      .ok (match isoFirst? s.data with
        | some x => ⟨x⟩
        | none => "")

/-- Attempt the SITC service pattern `([A-Z]+\d+[A-Z]*)` at the head. -/
def svcAt (cs : List Char) : Option (List Char) :=
  let us := cs.takeWhile isAZ
  let r1 := cs.dropWhile isAZ
  let ds := r1.takeWhile Char.isDigit
  let r2 := r1.dropWhile Char.isDigit
  let us2 := r2.takeWhile isAZ
  if us ≠ [] ∧ ds ≠ [] then some (us ++ ds ++ us2) else none

/-- Leftmost search for the SITC service pattern in the A1 header text. -/
def svcSearch : List Char → Option (List Char)
  | [] => none
  | c :: tl =>
    match svcAt (c :: tl) with
    | some r => some r
    | none => svcSearch tl

/-- Case-insensitive match of the literal `day` at the head (the transit
pattern's tail `days?` up to its required `day`; the optional `s` does not
affect group 1). -/
def dayLit : List Char → Bool
  | d :: a :: y :: _ => d.toLower = 'd' && a.toLower = 'a' && y.toLower = 'y'
  | _ => false

/-- Attempt the SITC transit pattern `(\d+)\s*days?` (IGNORECASE) at the head. -/
def transitAt (cs : List Char) : Option (List Char) :=
  let ds := cs.takeWhile Char.isDigit
  let r1 := cs.dropWhile Char.isDigit
  let r2 := r1.dropWhile isWS
  if ds ≠ [] ∧ dayLit r2 then some ds else none

/-- Leftmost search for the SITC transit pattern in the row-4 metadata text. -/
def transitSearch : List Char → Option (List Char)
  | [] => none
  | c :: tl =>
    match transitAt (c :: tl) with
    | some r => some r
    | none => transitSearch tl

/-- One SITC data row: columns 1..4 (vessel, voyage, raw ETD, raw ETA). -/
structure SitcRow where
  c1 : CellV
  c2 : CellV
  c3 : CellV
  c4 : CellV

/-- Python `str(value or "")` for a worksheet cell (falsy values give `""`). -/
def cellText (v : CellV) : List Char :=
  if pyTruthy v then (pyStrV v).data else []

/-- Processing of one SITC data row of parse_sitc_excel: SKIP filters, the
vessel/voyage presence filter, date normalization (which can raise), and the
final emit guard. -/
def sitcRowRec (service transit tsPort : List Char) (r : SitcRow) :
    Except Unit (Option Sched) :=
  let vessel := stripChars (cellText r.c1)
  let voyage := stripChars (cellText r.c2)
  if hasSub "SKIP".data (upperChars vessel) then .ok none
  else if pyTruthy r.c4 ∧ hasSub "SKIP".data (upperChars (pyStrV r.c4).data) then .ok none
  else if vessel = [] ∨ voyage = [] then .ok none
  else
    match sitcNormDate r.c3 with
    | .error e => .error e
    | .ok etd =>
      match sitcNormDate r.c4 with
      | .error e => .error e
      | .ok eta =>
        if vessel ≠ [] ∧ voyage ≠ [] ∧ etd ≠ "" then
          .ok (some ⟨"SITC", ⟨service⟩, ⟨vessel⟩, ⟨voyage⟩, etd, eta, ⟨transit⟩, ⟨tsPort⟩⟩)
        else .ok none

/-- The SITC data-row loop from row 5 to the last populated row. -/
def sitcRows (service transit tsPort : List Char) :
    List SitcRow → Except Unit (List Sched)
  | [] => .ok []
  | r :: rs =>
    match sitcRowRec service transit tsPort r with
    | .error e => .error e
    | .ok o =>
      match sitcRows service transit tsPort rs with
      | .error e => .error e
      | .ok rest => .ok (match o with | some x => x :: rest | none => rest)

/-- One SITC worksheet: the A1 header cell, the row-4 column-4 metadata cell,
and the data rows from row 5 to `max_row`. -/
structure Worksheet where
  a1 : CellV
  r4c4 : CellV
  rows : List SitcRow

/-- parse_sitc_excel: sheet-wide service (pattern on A1), sheet-wide
transshipment indicator (`DIRECT` in A1), sheet-wide transit time (pattern on
the row-4 cell), then the data-row loop. -/
def parse_sitc_excel (ws : Worksheet) : Except Unit (List Sched) :=
  let a1str := if pyTruthy ws.a1 then (pyStrV ws.a1).data else []
  let service := (svcSearch a1str).getD []
  let tsPort := if hasSub "DIRECT".data (upperChars a1str) then "DIRECT".data else []
  let r4str := if pyTruthy ws.r4c4 then (pyStrV ws.r4c4).data else []
  let transit := (transitSearch r4str).getD []
  sitcRows service transit tsPort ws.rows

/-- The records one file contributes inside the process_schedules loop: the
parse attempt either returns a list or raises, and the surrounding
`try/except` turns a raised exception into the empty contribution
(`schedules = []`) before `all_schedules.extend(schedules)`. -/
def fileContribution : Except Unit (List Sched) → List Sched
  | .ok s => s
  | .error _ => []

/-- The `all_schedules` list built by the orchestration loop of
process_schedules over a batch of files (each file's parse outcome given as
an `Except` value). -/
def allSchedules (fs : List (Except Unit (List Sched))) : List Sched :=
  (fs.map fileContribution).flatten

/-- pandas `DataFrame.drop_duplicates()` on the record list: keep the first
occurrence of every field-wise duplicate, preserving order. -/
def dropDup (seen : List Sched) : List Sched → List Sched
  | [] => []
  | r :: rs => if r ∈ seen then dropDup seen rs else r :: dropDup (r :: seen) rs

/-- The merge-and-optional-dedupe stage of process_schedules: extractor
outputs concatenated in invocation order, then `drop_duplicates` when
`remove_duplicates` is set. -/
def mergeSchedules (outs : List (List Sched)) (removeDup : Bool) : List Sched :=
  if removeDup then dropDup [] outs.flatten else outs.flatten

/-- The month-name table of filter_by_month in app.py (`month_map.get(name, 0)`). -/
def monthMap (s : String) : Nat :=
  if s = "January" then 1 else if s = "February" then 2 else if s = "March" then 3
  else if s = "April" then 4 else if s = "May" then 5 else if s = "June" then 6
  else if s = "July" then 7 else if s = "August" then 8 else if s = "September" then 9
  else if s = "October" then 10 else if s = "November" then 11
  else if s = "December" then 12 else 0

/-- The text before the first `-` of an ETD string
(`df['ETD'].str.split('-').str[0]`). -/
def etdLead (s : String) : List Char := s.data.takeWhile (fun c => c ≠ '-')

/-- Value of a non-empty all-digit character list. -/
def digitsVal? (cs : List Char) : Option Nat :=
  if cs ≠ [] ∧ cs.all Char.isDigit then
    some (cs.foldl (fun a c => 10 * a + (c.toNat - 48)) 0)
  else none

/-- Python `int()` conversion of a string (as applied by `astype(int)`):
surrounding whitespace allowed, optional sign, then decimal digits;
`none` models the raised `ValueError`. -/
def pyInt? (cs : List Char) : Option Int :=
  let t := (((cs.dropWhile isWS).reverse).dropWhile isWS).reverse
  match t with
  | '-' :: rest => (digitsVal? rest).map fun n => -(n : Int)
  | '+' :: rest => (digitsVal? rest).map fun n => (n : Int)
  | rest => (digitsVal? rest).map fun n => (n : Int)

/-- The month of a record as computed by filter_by_month
(`.str.split('-').str[0].astype(int)`). -/
def etdMonth? (s : String) : Option Int := pyInt? (etdLead s)

/-- The keep condition applied by filter_by_month once at least one bound is
set, for a row of month `m`: both bounds with start ≤ end keeps `[start,end]`,
both bounds with start > end keeps the wraparound union, a single bound keeps
the half-line. -/
def monthCond (sN eN : Nat) (m : Int) : Bool :=
  if 0 < sN ∧ 0 < eN then
    if sN ≤ eN then decide ((sN : Int) ≤ m) && decide (m ≤ (eN : Int))
    else decide ((sN : Int) ≤ m) || decide (m ≤ (eN : Int))
  else if 0 < sN then decide ((sN : Int) ≤ m)
  else if 0 < eN then decide (m ≤ (eN : Int))
  else true

/-- The month column computation of filter_by_month: `none` when `astype(int)`
raises on some row. -/
def monthsOf : List Sched → Option (List (Sched × Int))
  | [] => some []
  | r :: rs =>
    match etdMonth? r.etd, monthsOf rs with
    | some m, some ps => some ((r, m) :: ps)
    | _, _ => none

/-- filter_by_month of app.py with the numeric bounds already looked up in
`month_map` (0 = the `All` sentinel): empty frames and the all-`All` case
return the input before any month is parsed; otherwise the month column is
computed for every row and the keep condition applied. -/
def filterByMonthNum (df : List Sched) (sN eN : Nat) : Option (List Sched) :=
  if df.isEmpty then some df
  else if sN = 0 ∧ eN = 0 then some df
  else
    match monthsOf df with
    | none => none
    | some ps => some ((ps.filter fun p => monthCond sN eN p.2).map Prod.fst)

/-- filter_by_month on the month names offered by the selectboxes. -/
def filter_by_month (df : List Sched) (startMonth endMonth : String) :
    Option (List Sched) :=
  filterByMonthNum df (monthMap startMonth) (monthMap endMonth)

/-- Character-list version of the ETD/ETA shape `\d\{2\}-\d\{2\}`. -/
def isMMDDChars : List Char → Bool
  | [a, b, c, d, e] => a.isDigit && b.isDigit && (c = '-') && d.isDigit && e.isDigit
  | _ => false

/-- The two-digit-dash-two-digit ETD/ETA shape `\d\{2\}-\d\{2\}`. -/
def isMMDD (s : String) : Bool := isMMDDChars s.data

theorem isMMDD_mk (cs : List Char) : isMMDD ⟨cs⟩ = isMMDDChars cs := by
  rfl

theorem mk_eq_empty_iff (cs : List Char) : (⟨cs⟩ : String) = "" ↔ cs = [] := by
  constructor
  · intro h
    have h2 := congrArg String.data h
    simpa using h2
  · intro h
    simp [h]

theorem digit_ne_dash {c : Char} (h : c.isDigit = true) : c ≠ '-' := by
  intro he
  subst he
  exact absurd h (by decide)

theorem digit_ne_plus {c : Char} (h : c.isDigit = true) : c ≠ '+' := by
  intro he
  subst he
  exact absurd h (by decide)

theorem digit_not_ws {c : Char} (h : c.isDigit = true) : isWS c = false := by
  rw [isWS]
  cases hb : c.isWhitespace with
  | false => rfl
  | true =>
    exfalso
    simp only [Char.isWhitespace, Bool.or_eq_true, decide_eq_true_eq] at hb
    rcases hb with ((hb | hb) | hb) | hb <;> subst hb <;> exact absurd h (by decide)

theorem digitChar_isDigit (n : Nat) : (digitChar n).isDigit = true := by
  have h : n % 10 < 10 := Nat.mod_lt _ (by omega)
  unfold digitChar
  generalize hg : n % 10 = r at h ⊢
  interval_cases r <;> decide

theorem twoDigits?_some {cs : List Char} {a b : Char} {r : List Char}
    (h : twoDigits? cs = some (a, b, r)) :
    a.isDigit = true ∧ b.isDigit = true ∧ cs = a :: b :: r := by
  cases cs with
  | nil => simp [twoDigits?] at h
  | cons x tl =>
    cases tl with
    | nil => simp [twoDigits?] at h
    | cons y rest =>
      simp only [twoDigits?] at h
      split at h
      · rename_i hd
        simp only [Option.some.injEq, Prod.mk.injEq] at h
        obtain ⟨h1, h2, h3⟩ := h
        subst h1; subst h2; subst h3
        simp only [Bool.and_eq_true] at hd
        exact ⟨hd.1, hd.2, rfl⟩
      · simp at h

theorem matchCoscoAt_shape {cs out : List Char} (h : matchCoscoAt cs = some out) :
    isMMDDChars out = true := by
  simp only [matchCoscoAt, Option.bind_eq_some, Option.map_eq_some'] at h
  obtain ⟨r1, hr1, ⟨a1, b1, t1⟩, hp1, r2, hr2, ⟨a2, b2, t2⟩, hp2, hout⟩ := h
  obtain ⟨ha, hb, -⟩ := twoDigits?_some hp1
  obtain ⟨hc, hd, -⟩ := twoDigits?_some hp2
  subst hout
  simp [isMMDDChars, ha, hb, hc, hd]

theorem coscoSearch_shape {cs out : List Char} (h : coscoSearch cs = some out) :
    isMMDDChars out = true := by
  induction cs with
  | nil => exact absurd h (by simp [coscoSearch])
  | cons c tl ih =>
    rw [coscoSearch] at h
    cases hm : matchCoscoAt (c :: tl) with
    | some r =>
      rw [hm] at h
      exact Option.some.inj h ▸ matchCoscoAt_shape hm
    | none =>
      rw [hm] at h
      exact ih h

theorem matchIsoAt_shape {cs : List Char} {mm dd rest : List Char}
    (h : matchIsoAt cs = some (mm, dd, rest)) :
    isMMDDChars (mm ++ '-' :: dd) = true := by
  simp only [matchIsoAt, Option.bind_eq_some, Option.map_eq_some'] at h
  obtain ⟨⟨a1, b1, t1⟩, hp1, ⟨a2, b2, t2⟩, hp2, r1, hr1, ⟨a3, b3, t3⟩, hp3, r2, hr2,
    ⟨a4, b4, t4⟩, hp4, hout⟩ := h
  obtain ⟨ha, hb, -⟩ := twoDigits?_some hp3
  obtain ⟨hc, hd, -⟩ := twoDigits?_some hp4
  simp only [Prod.mk.injEq] at hout
  obtain ⟨h1, h2, h3⟩ := hout
  subst h1; subst h2
  simp [isMMDDChars, ha, hb, hc, hd]

theorem isoScan_mem_shape {fuel : Nat} {cs : List Char} {p : List Char × List Char}
    (h : p ∈ isoScan fuel cs) : isMMDDChars (mmddOf p) = true := by
  induction fuel generalizing cs with
  | zero => exact absurd h (by simp [isoScan])
  | succ n ih =>
    match cs with
    | [] => exact absurd h (by simp [isoScan])
    | c :: tl =>
      rw [isoScan] at h
      cases hm : matchIsoAt (c :: tl) with
      | some q =>
        obtain ⟨mm, dd, rest⟩ := q
        rw [hm] at h
        rcases List.mem_cons.mp h with he | hmem
        · subst he
          exact matchIsoAt_shape hm
        · exact ih hmem
      | none =>
        rw [hm] at h
        exact ih h

theorem isoFirst?_shape {cs out : List Char} (h : isoFirst? cs = some out) :
    isMMDDChars out = true := by
  induction cs with
  | nil => exact absurd h (by simp [isoFirst?])
  | cons c tl ih =>
    rw [isoFirst?] at h
    cases hm : matchIsoAt (c :: tl) with
    | some q =>
      obtain ⟨mm, dd, rest⟩ := q
      rw [hm] at h
      have h2 := Option.some.inj h
      subst h2
      exact matchIsoAt_shape hm
    | none =>
      rw [hm] at h
      exact ih h

/-- Month/day bounds of the civil-date conversion: whatever the day number,
the computed month is 1..12 and the day 1..31, so `strftime`-style two-digit
formatting (`fmt2`) is the faithful rendering wherever this program formats a
converted date. -/
theorem civilFromDays_bounds (z : Int) :
    1 ≤ (civilFromDays z).2.1 ∧ (civilFromDays z).2.1 ≤ 12 ∧
    1 ≤ (civilFromDays z).2.2 ∧ (civilFromDays z).2.2 ≤ 31 := by
  have h1 : 0 ≤ (z + 719468).emod 146097 := Int.emod_nonneg _ (by norm_num)
  have h2 : (z + 719468).emod 146097 < 146097 := Int.emod_lt_of_pos _ (by norm_num)
  have h3 : ((z + 719468).emod 146097).toNat < 146097 := by omega
  simp only [civilFromDays]
  split_ifs <;> omega

/-- Day-serials in the range whose resulting date Python's `datetime` can
represent (years 1..9999) never raise in the SITC serial branch. -/
theorem pyDateAdd?_isSome (n : Int) (h1 : -693593 ≤ n) (h2 : n ≤ 2958465) :
    (pyDateAdd? n).isSome = true := by
  have hq : (-25569 + n + 719468) =
      146097 * ((-25569 + n + 719468).ediv 146097) + (-25569 + n + 719468).emod 146097 :=
    (Int.ediv_add_emod _ _).symm
  have hr1 : 0 ≤ (-25569 + n + 719468).emod 146097 := Int.emod_nonneg _ (by norm_num)
  have hr2 : (-25569 + n + 719468).emod 146097 < 146097 := Int.emod_lt_of_pos _ (by norm_num)
  have he0 : daysFromCivil 1899 12 30 = -25569 := by decide
  have he : daysFromCivil 1899 12 30 + n = -25569 + n := by rw [he0]
  have hy : 1 ≤ (civilFromDays (-25569 + n)).1 ∧ (civilFromDays (-25569 + n)).1 ≤ 9999 := by
    simp only [civilFromDays]
    split_ifs <;> constructor <;> omega
  simp only [pyDateAdd?, he]
  rw [if_pos hy]
  rfl

theorem mmddStr_shape (m d : Nat) : isMMDDChars (mmddStr m d) = true := by
  simp [mmddStr, fmt2, isMMDDChars, digitChar_isDigit]

theorem isMMDD_data (s : String) : isMMDD s = isMMDDChars s.data := rfl

/-- Shape of every string the SITC date normalizer returns without raising. -/
theorem sitcNormDate_shape {v : CellV} {s : String} (h : sitcNormDate v = .ok s) :
    s = "" ∨ isMMDD s = true := by
  cases v with
  | cnone =>
    left
    simpa [sitcNormDate] using h.symm
  | cdate dt =>
    right
    have h2 : s = (⟨mmddStr dt.m dt.d⟩ : String) := by
      simpa [sitcNormDate] using h.symm
    rw [h2, isMMDD_mk]
    exact mmddStr_shape _ _
  | cint n =>
    rw [sitcNormDate] at h
    split_ifs at h with h0
    · left
      simpa using h.symm
    · cases hp : pyDateAdd? n with
      | none => rw [hp] at h; exact absurd h (by simp)
      | some md =>
        rw [hp] at h
        right
        have h2 : s = (⟨mmddStr md.1 md.2⟩ : String) := by
          simpa using h.symm
        rw [h2, isMMDD_mk]
        exact mmddStr_shape _ _
  | cstr t =>
    rw [sitcNormDate] at h
    split_ifs at h with h0
    · left
      simpa using h.symm
    · cases hi : isoFirst? t.data with
      | none =>
        rw [hi] at h
        left
        simpa using h.symm
      | some out =>
        rw [hi] at h
        right
        have h2 : s = (⟨out⟩ : String) := by simpa using h.symm
        rw [h2, isMMDD_mk]
        exact isoFirst?_shape hi

/-- Inversion of the `MM-DD` shape test. -/
theorem isMMDDChars_shape : ∀ {cs : List Char}, isMMDDChars cs = true →
    ∃ a b d e, cs = [a, b, '-', d, e] ∧ a.isDigit = true ∧ b.isDigit = true ∧
      d.isDigit = true ∧ e.isDigit = true := by
  intro cs h
  match cs with
  | [] => simp [isMMDDChars] at h
  | [_] => simp [isMMDDChars] at h
  | [_, _] => simp [isMMDDChars] at h
  | [_, _, _] => simp [isMMDDChars] at h
  | [_, _, _, _] => simp [isMMDDChars] at h
  | a :: b :: c :: d :: e :: rest =>
    match rest with
    | [] =>
      simp only [isMMDDChars, Bool.and_eq_true, decide_eq_true_eq] at h
      obtain ⟨⟨⟨⟨ha, hb⟩, hc⟩, hd⟩, he⟩ := h
      exact ⟨a, b, d, e, by rw [hc], ha, hb, hd, he⟩
    | _ :: _ => simp [isMMDDChars] at h

/-- A `\d\{2\}-\d\{2\}` ETD always parses in the month filter:
`int()` of the text before the first dash succeeds. -/
theorem mmdd_parse {cs : List Char} (h : isMMDDChars cs = true) :
    (pyInt? (cs.takeWhile (fun c => c ≠ '-'))).isSome = true := by
  obtain ⟨a, b, c, d, hcs, ha, hb, hc, hd⟩ := isMMDDChars_shape h
  subst hcs
  have ta : (decide (a ≠ '-')) = true := by simp [digit_ne_dash ha]
  have tb : (decide (b ≠ '-')) = true := by simp [digit_ne_dash hb]
  have htake : ([a, b, '-', c, d].takeWhile (fun x => decide (x ≠ '-'))) = [a, b] := by
    rw [List.takeWhile_cons, ta, List.takeWhile_cons, tb, List.takeWhile_cons]
    simp
  show (pyInt? ([a, b, '-', c, d].takeWhile (fun x => decide (x ≠ '-')))).isSome = true
  rw [htake]
  have hwa := digit_not_ws ha
  have hwb := digit_not_ws hb
  simp only [pyInt?, List.dropWhile_cons, hwa, hwb, Bool.false_eq_true, if_false,
    List.reverse_cons, List.reverse_nil, List.nil_append, List.singleton_append,
    List.dropWhile_nil]
  split
  · rename_i rest heq
    exact absurd (congrArg (fun l => l.headD 'x') heq) (by simpa using digit_ne_dash ha)
  · rename_i rest heq
    exact absurd (congrArg (fun l => l.headD 'x') heq) (by simpa using digit_ne_plus ha)
  · simp [digitsVal?, ha, hb]

/-- The month computed by filter_by_month exists for every record whose ETD
has the `MM-DD` shape. -/
theorem mmdd_etdMonth {s : String} (h : isMMDD s = true) :
    (etdMonth? s).isSome = true := by
  rw [isMMDD_data] at h
  exact mmdd_parse h

theorem mk_ne_empty {cs : List Char} (h : cs ≠ []) : (⟨cs⟩ : String) ≠ "" :=
  fun he => h ((mk_eq_empty_iff cs).mp he)

theorem mk_empty : (⟨[]⟩ : String) = "" := (mk_eq_empty_iff []).mpr rfl

/-- A date field that is either unset or shaped is shaped once non-empty. -/
theorem field_shape {es : List Char} (h : es = [] ∨ isMMDDChars es = true)
    (hne : (⟨es⟩ : String) ≠ "") : isMMDD (⟨es⟩ : String) = true := by
  rcases h with h | h
  · subst h
    exact absurd mk_empty hne
  · rw [isMMDD_mk]
    exact h

theorem coscoGetD_shape (X : List Char) :
    (coscoSearch X).getD [] = [] ∨ isMMDDChars ((coscoSearch X).getD []) = true := by
  cases hm : coscoSearch X with
  | none => left; rfl
  | some out => right; simpa using coscoSearch_shape hm

/-- Every record the COSCO row loop emits has non-empty vessel, voyage and
ETD, an `MM-DD`-shaped ETD, and an `MM-DD`-shaped ETA whenever non-empty. -/
theorem cosco_mem {t : List (List Cell)} {fuel i : Nat} {r : Sched}
    (h : r ∈ coscoRowsAux t fuel i) :
    r.carrier = "COSCO" ∧ r.vessel ≠ "" ∧ r.voyage ≠ "" ∧ r.etd ≠ "" ∧
      isMMDD r.etd = true ∧ (r.eta ≠ "" → isMMDD r.eta = true) := by
  induction fuel generalizing i with
  | zero => simp [coscoRowsAux] at h
  | succ n ih =>
    simp only [coscoRowsAux] at h
    split at h
    · split at h
      · exact ih h
      · split at h
        · exact ih h
        · rcases List.mem_append.mp h with hmem | hmem
          · split at hmem
            · rename_i hguard
              obtain ⟨hv, hvoy, hetd⟩ := hguard
              have he : r = _ := List.mem_singleton.mp hmem
              subst he
              refine ⟨rfl, mk_ne_empty hv, mk_ne_empty hvoy, mk_ne_empty hetd, ?_, ?_⟩
              · exact field_shape (coscoGetD_shape _) (mk_ne_empty hetd)
              · intro hne
                refine field_shape ?_ hne
                split
                · exact coscoGetD_shape _
                · left; rfl
            · simp at hmem
          · exact ih hmem
    · simp at h

/-- Invariant of the marker-window state: dates are unset or `MM-DD` shaped. -/
def dateShapeInv (st : OneState) : Prop :=
  (st.etd = [] ∨ isMMDDChars st.etd = true) ∧ (st.eta = [] ∨ isMMDDChars st.eta = true)

theorem isoFindAll_getD_shape {X : List Char} {k : Nat} (hk : k < (isoFindAll X).length) :
    isMMDDChars (mmddOf ((isoFindAll X).getD k ([], []))) = true := by
  rw [List.getD_eq_getElem _ _ hk]
  exact isoScan_mem_shape (List.getElem_mem hk)

theorem oneStepDates_pres (lines : List String) (st : OneState) (j : Nat)
    (h : dateShapeInv st) : dateShapeInv (oneStepDates lines st j) := by
  rw [oneStepDates]
  split
  · split
    · rename_i hlen
      constructor
      · right
        exact isoFindAll_getD_shape (by omega)
      · right
        exact isoFindAll_getD_shape (by omega)
    · exact h
  · exact h

theorem oneStepTs_pres (lines : List String) (st : OneState) (j : Nat)
    (h : dateShapeInv st) : dateShapeInv (oneStepTs lines st j) := by
  rw [oneStepTs]
  split
  · exact ⟨h.1, h.2⟩
  · exact h

theorem oneStepSvc_pres (lines : List String) (st : OneState) (j : Nat)
    (h : dateShapeInv st) : dateShapeInv (oneStepSvc lines st j) := by
  rw [oneStepSvc]
  split
  · cases firstToken? (stripChars (lines.getD (j + 1) "").data) with
    | some cand =>
      dsimp only
      by_cases hc : cand ∉ ["CY".data, "Origin".data, "Destination".data] ∧ cand.length ≤ 5
      · rw [if_pos hc]
        exact ⟨h.1, h.2⟩
      · rw [if_neg hc]
        exact h
    | none => exact h
  · exact h

theorem oneStep_pres (lines : List String) (st : OneState) (j : Nat)
    (h : dateShapeInv st) : dateShapeInv (oneStep lines st j) :=
  oneStepSvc_pres _ _ _ (oneStepTs_pres _ _ _ (oneStepDates_pres _ _ _ h))

theorem foldl_oneStep_pres (lines : List String) (js : List Nat) (st : OneState)
    (h : dateShapeInv st) : dateShapeInv (js.foldl (oneStep lines) st) := by
  induction js generalizing st with
  | nil => exact h
  | cons j js ih => exact ih _ (oneStep_pres lines st j h)

theorem oneWindow_inv (lines : List String) (i : Nat) : dateShapeInv (oneWindow lines i) :=
  foldl_oneStep_pres lines _ _ ⟨Or.inl rfl, Or.inl rfl⟩

/-- Every record one anchored ONE entry emits has non-empty vessel, voyage
and ETD, an `MM-DD`-shaped ETD, and an `MM-DD`-shaped ETA when non-empty. -/
theorem oneEntryAt_some {lines : List String} {i : Nat} {r : Sched}
    (h : oneEntryAt lines i = some r) :
    r.carrier = "ONE" ∧ r.vessel ≠ "" ∧ r.voyage ≠ "" ∧ r.etd ≠ "" ∧
      isMMDD r.etd = true ∧ (r.eta ≠ "" → isMMDD r.eta = true) := by
  rw [oneEntryAt] at h
  split at h
  · exact absurd h (by simp)
  · split at h
    · rename_i hguard
      obtain ⟨hv, hvoy, hetd⟩ := hguard
      have he := Option.some.inj h
      subst he
      have hinv := oneWindow_inv lines i
      refine ⟨rfl, mk_ne_empty hv, mk_ne_empty hvoy, mk_ne_empty hetd, ?_, ?_⟩
      · exact field_shape hinv.1 (mk_ne_empty hetd)
      · intro hne
        exact field_shape hinv.2 hne
    · exact absurd h (by simp)

/-- ONE page-level invariant. -/
theorem one_page_mem {lines : List String} {r : Sched} (h : r ∈ parse_one_page lines) :
    r.carrier = "ONE" ∧ r.vessel ≠ "" ∧ r.voyage ≠ "" ∧ r.etd ≠ "" ∧
      isMMDD r.etd = true ∧ (r.eta ≠ "" → isMMDD r.eta = true) := by
  obtain ⟨i, -, hi⟩ := List.mem_filterMap.mp h
  exact oneEntryAt_some hi

/-- A record emitted for one SITC data row has non-empty vessel, voyage and
ETD, an `MM-DD`-shaped ETD, and an `MM-DD`-shaped ETA when non-empty. -/
theorem sitcRowRec_some {service transit tsPort : List Char} {row : SitcRow} {r : Sched}
    (h : sitcRowRec service transit tsPort row = .ok (some r)) :
    r.carrier = "SITC" ∧ r.vessel ≠ "" ∧ r.voyage ≠ "" ∧ r.etd ≠ "" ∧
      isMMDD r.etd = true ∧ (r.eta ≠ "" → isMMDD r.eta = true) := by
  rw [sitcRowRec] at h
  split_ifs at h with h1 h2 h3
  · exact absurd (Except.ok.inj h) (by simp)
  · exact absurd (Except.ok.inj h) (by simp)
  · exact absurd (Except.ok.inj h) (by simp)
  · split at h
    · exact absurd h (by simp)
    · rename_i etd hetd
      split at h
      · exact absurd h (by simp)
      · rename_i eta heta
        split at h
        · rename_i hguard
          obtain ⟨hv, hvoy, hetdne⟩ := hguard
          have he := Option.some.inj (Except.ok.inj h)
          subst he
          refine ⟨rfl, mk_ne_empty hv, mk_ne_empty hvoy, hetdne, ?_, ?_⟩
          · rcases sitcNormDate_shape hetd with hs | hs
            · exact absurd hs hetdne
            · exact hs
          · intro hne
            rcases sitcNormDate_shape heta with hs | hs
            · exact absurd hs hne
            · exact hs
        · exact absurd (Except.ok.inj h) (by simp)

/-- SITC row-loop invariant. -/
theorem sitcRows_mem {service transit tsPort : List Char} {rows : List SitcRow}
    {out : List Sched} {r : Sched}
    (h : sitcRows service transit tsPort rows = .ok out) (hr : r ∈ out) :
    r.carrier = "SITC" ∧ r.vessel ≠ "" ∧ r.voyage ≠ "" ∧ r.etd ≠ "" ∧
      isMMDD r.etd = true ∧ (r.eta ≠ "" → isMMDD r.eta = true) := by
  induction rows generalizing out with
  | nil =>
    rw [sitcRows] at h
    have he := Except.ok.inj h
    subst he
    exact absurd hr (by simp)
  | cons row rows ih =>
    rw [sitcRows] at h
    split at h
    · exact absurd h (by simp)
    · rename_i o ho
      split at h
      · exact absurd h (by simp)
      · rename_i rest hrest
        have he := Except.ok.inj h
        subst he
        cases o with
        | some x =>
          rcases List.mem_cons.mp hr with he | hmem
          · subst he
            exact sitcRowRec_some ho
          · exact ih hrest hmem
        | none => exact ih hrest hr

/-- parse_sitc_excel invariant. -/
theorem sitc_mem {ws : Worksheet} {out : List Sched} {r : Sched}
    (h : parse_sitc_excel ws = .ok out) (hr : r ∈ out) :
    r.carrier = "SITC" ∧ r.vessel ≠ "" ∧ r.voyage ≠ "" ∧ r.etd ≠ "" ∧
      isMMDD r.etd = true ∧ (r.eta ≠ "" → isMMDD r.eta = true) :=
  sitcRows_mem h hr

/-- parse_cosco_pdf invariant, lifted over tables. -/
theorem cosco_pdf_mem {tables : List (List (List Cell))} {r : Sched}
    (h : r ∈ parse_cosco_pdf tables) :
    r.carrier = "COSCO" ∧ r.vessel ≠ "" ∧ r.voyage ≠ "" ∧ r.etd ≠ "" ∧
      isMMDD r.etd = true ∧ (r.eta ≠ "" → isMMDD r.eta = true) := by
  obtain ⟨t, -, ht⟩ := List.mem_flatMap.mp h
  rw [parse_cosco_table] at ht
  split at ht
  · exact absurd ht (by simp)
  · split at ht
    · exact absurd ht (by simp)
    · exact cosco_mem ht

/-- parse_one_pdf invariant, lifted over pages. -/
theorem one_pdf_mem {pages : List (List String)} {r : Sched}
    (h : r ∈ parse_one_pdf pages) :
    r.carrier = "ONE" ∧ r.vessel ≠ "" ∧ r.voyage ≠ "" ∧ r.etd ≠ "" ∧
      isMMDD r.etd = true ∧ (r.eta ≠ "" → isMMDD r.eta = true) := by
  obtain ⟨p, -, hp⟩ := List.mem_flatMap.mp h
  exact one_page_mem hp

/-- The month value of a record with a parseable ETD. -/
def mOf (r : Sched) : Int := (etdMonth? r.etd).getD 0

theorem monthsOf_eq {df : List Sched} (h : ∀ r ∈ df, (etdMonth? r.etd).isSome = true) :
    monthsOf df = some (df.map fun r => (r, mOf r)) := by
  induction df with
  | nil => rfl
  | cons r rs ih =>
    rw [monthsOf]
    have hr := h r (by simp)
    cases hm : etdMonth? r.etd with
    | none => rw [hm] at hr; simp at hr
    | some m =>
      rw [ih (fun x hx => h x (by simp [hx]))]
      simp [mOf, hm]

theorem map_fst_filter_snd (df : List Sched) (p : Int → Bool) :
    List.map Prod.fst (List.filter (fun q => p q.2) (List.map (fun r => (r, mOf r)) df)) =
    List.filter (fun r => p (mOf r)) df := by
  induction df with
  | nil => rfl
  | cons r rs ih =>
    simp only [List.map_cons, List.filter_cons]
    by_cases hp : p (mOf r) = true
    · rw [if_pos hp, if_pos hp, List.map_cons, ih]
    · rw [if_neg hp, if_neg hp, ih]

/-- Once at least one bound is set and every row's month parses,
filter_by_month keeps exactly the rows satisfying the keep condition. -/
theorem filterByMonthNum_eq {df : List Sched} {s e : Nat} (hne : ¬(s = 0 ∧ e = 0))
    (h : ∀ r ∈ df, (etdMonth? r.etd).isSome = true) :
    filterByMonthNum df s e = some (df.filter fun r => monthCond s e (mOf r)) := by
  rw [filterByMonthNum]
  by_cases hdf : df.isEmpty
  · have hnil : df = [] := List.isEmpty_iff.mp hdf
    subst hnil
    simp
  · rw [if_neg (by simpa using hdf), if_neg hne, monthsOf_eq h]
    dsimp only
    congr 1
    exact map_fst_filter_snd df (monthCond s e)

theorem dropDup_sublist (l : List Sched) : ∀ seen, (dropDup seen l).Sublist l := by
  induction l with
  | nil => intro seen; simp [dropDup]
  | cons a tl ih =>
    intro seen
    rw [dropDup]
    split
    · exact (ih seen).cons a
    · exact (ih (a :: seen)).cons₂ a

theorem dropDup_count_seen {r : Sched} (l : List Sched) : ∀ seen, r ∈ seen →
    (dropDup seen l).count r = 0 := by
  induction l with
  | nil => intro seen _; simp [dropDup]
  | cons a tl ih =>
    intro seen hseen
    rw [dropDup]
    split
    · exact ih seen hseen
    · rename_i hnot
      have hra : r ≠ a := by
        intro he
        rw [he] at hseen
        exact hnot hseen
      rw [List.count_cons_of_ne hra]
      exact ih (a :: seen) (List.mem_cons_of_mem a hseen)

theorem dropDup_count_one {r : Sched} (l : List Sched) : ∀ seen, r ∉ seen → r ∈ l →
    (dropDup seen l).count r = 1 := by
  induction l with
  | nil => intro seen _ hmem; simp at hmem
  | cons a tl ih =>
    intro seen hseen hmem
    rw [dropDup]
    split
    · rename_i hin
      have hne : r ≠ a := by
        intro he
        rw [he] at hseen
        exact hseen hin
      rcases List.mem_cons.mp hmem with he | hmem'
      · exact absurd he hne
      · exact ih seen hseen hmem'
    · rename_i hnot
      by_cases hra : a = r
      · subst hra
        rw [List.count_cons_self, dropDup_count_seen tl (a :: seen) (by simp)]
      · have hra' : r ≠ a := fun he => hra he.symm
        rw [List.count_cons_of_ne hra']
        rcases List.mem_cons.mp hmem with he | hmem'
        · exact absurd he.symm hra
        · have hnotin : r ∉ a :: seen := by
            intro hmem2
            rcases List.mem_cons.mp hmem2 with he | he
            · exact hra he.symm
            · exact hseen he
          exact ih (a :: seen) hnotin hmem'

theorem foldl_ext {α β : Type} (f g : β → α → β) (l : List α)
    (h : ∀ a ∈ l, ∀ b, f b a = g b a) : ∀ b, l.foldl f b = l.foldl g b := by
  induction l with
  | nil => intro b; rfl
  | cons a tl ih =>
    intro b
    rw [List.foldl_cons, List.foldl_cons, h a (by simp)]
    exact ih (fun x hx b2 => h x (by simp [hx]) b2) _

theorem oneStep_append (lines extra : List String) (j : Nat) (st : OneState)
    (hj : j + 1 < lines.length) :
    oneStep (lines ++ extra) st j = oneStep lines st j := by
  have hj0 : j < lines.length := by omega
  have hj2 : j + 1 < (lines ++ extra).length := by
    rw [List.length_append]; omega
  unfold oneStep oneStepDates oneStepTs oneStepSvc
  simp only [List.getD_append _ _ _ _ hj0, List.getD_append _ _ _ _ hj, eq_true hj,
    eq_true hj2, and_true]

theorem oneVV0_append (lines extra : List String) (i : Nat) (h : i + 1 < lines.length) :
    oneVV0 (lines ++ extra) i = oneVV0 lines i := by
  have h0 : i < lines.length := by omega
  have h2 : i + 1 < (lines ++ extra).length := by
    rw [List.length_append]; omega
  unfold oneVV0
  simp only [List.getD_append _ _ _ _ h0, List.getD_append _ _ _ _ h, eq_true h,
    eq_true h2, and_true]

theorem windowIdxs_small (i len w : Nat) (h : i + w ≤ len) :
    windowIdxs i len w = List.range' i w := by
  rw [windowIdxs]
  have h1 : min (i + w) len = i + w := by omega
  rw [h1]
  have h2 : i + w - i = w := by omega
  rw [h2]

theorem oneFallback_append (lines extra : List String) (i : Nat)
    (h : i + 3 ≤ lines.length) :
    oneFallback (lines ++ extra) i = oneFallback lines i := by
  unfold oneFallback
  have hw1 : windowIdxs i (lines ++ extra).length 3 = List.range' i 3 := by
    apply windowIdxs_small
    rw [List.length_append]
    omega
  have hw2 : windowIdxs i lines.length 3 = List.range' i 3 := windowIdxs_small _ _ _ h
  rw [hw1, hw2]
  have e0 : (lines ++ extra).getD i "" = lines.getD i "" :=
    List.getD_append _ _ _ _ (by omega)
  have e1 : (lines ++ extra).getD (i + 1) "" = lines.getD (i + 1) "" :=
    List.getD_append _ _ _ _ (by omega)
  have e2 : (lines ++ extra).getD (i + 2) "" = lines.getD (i + 2) "" :=
    List.getD_append _ _ _ _ (by omega)
  show List.findSome? _ [i, i + 1, i + 2] = List.findSome? _ [i, i + 1, i + 2]
  simp only [List.findSome?_cons, List.findSome?_nil, e0, e1, e2]

theorem oneWindow_append (lines extra : List String) (i : Nat)
    (h : i + 21 ≤ lines.length) :
    oneWindow (lines ++ extra) i = oneWindow lines i := by
  unfold oneWindow
  have hw1 : windowIdxs i (lines ++ extra).length 20 = List.range' i 20 := by
    apply windowIdxs_small
    rw [List.length_append]
    omega
  have hw2 : windowIdxs i lines.length 20 = List.range' i 20 :=
    windowIdxs_small _ _ _ (by omega)
  rw [hw1, hw2]
  refine foldl_ext _ _ _ ?_ _
  intro j hj st
  have hj' : i ≤ j ∧ j < i + 20 := by
    have := List.mem_range'_1.mp hj
    omega
  exact oneStep_append lines extra j st (by omega)

/-- Locality of one anchored ONE entry: line content at index `i + 21` or
beyond never influences the entry anchored at line `i`. -/
theorem oneEntryAt_frame (lines extra : List String) (i : Nat)
    (h : i + 21 ≤ lines.length) :
    oneEntryAt (lines ++ extra) i = oneEntryAt lines i := by
  rw [oneEntryAt, oneEntryAt]
  have h0 : i < lines.length := by omega
  rw [List.getD_append _ _ _ _ h0]
  cases anchorDigits? (stripChars (lines.getD i "").data) with
  | none => rfl
  | some t =>
    have hvv : oneVV (lines ++ extra) i = oneVV lines i := by
      unfold oneVV
      rw [oneVV0_append _ _ _ (by omega), oneFallback_append _ _ _ (by omega)]
    rw [hvv, oneWindow_append _ _ _ h]

instance {e a : Type} [DecidableEq e] [DecidableEq a] : DecidableEq (Except e a) :=
  fun x y =>
    match x, y with
    | .ok u, .ok v =>
      if h : u = v then .isTrue (by rw [h]) else .isFalse (fun he => h (Except.ok.inj he))
    | .error u, .error v =>
      if h : u = v then .isTrue (by rw [h]) else .isFalse (fun he => h (Except.error.inj he))
    | .ok _, .error _ => .isFalse (fun he => Except.noConfusion he)
    | .error _, .ok _ => .isFalse (fun he => Except.noConfusion he)

/-- Demo COSCO header row containing the token `Service`. -/
def coscoHdr : List Cell := [some "No.", some "Service", some "Vessel"]

/-- The C5 data row-pair, first row (fixed column offsets of parse_cosco_pdf). -/
def coscoRowHPX2 : List Cell :=
  [some "", some "HPX2", some "MTT SENARI", some "029S", some "", some "",
   some "2026- 02- 15", some "", some "Port kelang", some "", some "", some "", some "11"]

/-- The same row with service `EC3`. -/
def coscoRowEC3 : List Cell :=
  [some "", some "EC3", some "MTT SENARI", some "029S", some "", some "",
   some "2026- 02- 15", some "", some "Port kelang", some "", some "", some "", some "11"]

/-- The C5 second row of the pair, carrying the ETA at column 9. -/
def coscoRowEta : List Cell :=
  [some "", some "", some "", some "", some "", some "", some "", some "", some "",
   some "2026-02-26"]

def coscoDemoTable : List (List Cell) := [coscoHdr, coscoRowHPX2, coscoRowEta]

def coscoEC3Table : List (List Cell) := [coscoHdr, coscoRowEC3, coscoRowEta]

def coscoDemoRec : Sched :=
  ⟨"COSCO", "HPX2", "MTT SENARI", "029S", "02-15", "02-26", "11", "Port kelang"⟩

/-- A data row whose vessel cell is `None` (C10). -/
def coscoNullRow : List Cell :=
  [some "x", some "HPX2", none, some "029S", some "", some "", some "2026-02-15",
   some "", some "PKG", some ""]

def coscoNullTable : List (List Cell) := [coscoHdr, coscoNullRow, []]

def coscoNullRec : Sched := ⟨"COSCO", "HPX2", "None", "029S", "02-15", "", "", "PKG"⟩

/-- A ONE page with the `Vessel / Voyage` label on the anchor line. -/
def oneDemoLines : List String :=
  ["3 DAY(S) Vessel / Voyage", "MTT SENARI 029S", "Origin Destination",
   "2026-02-15 2026-02-26", "TRANSSHIPMENT", "Service  Origin Destination", "HPX2 x y"]

def oneDemoRec : Sched :=
  ⟨"ONE", "HPX2", "MTT SENARI", "029S", "02-15", "02-26", "3", "TRANSSHIPMENT"⟩

/-- A ONE page without the label: the fallback vessel line is 2 lines after
the anchor (the last line inside the fallback window). -/
def oneFallbackLines : List String :=
  ["4 DAY(S)", "junk", "MV OCEAN 123A X", "Origin Destination", "2026-02-15 2026-02-26"]

def oneFallbackRec : Sched :=
  ⟨"ONE", "", "MV OCEAN", "123A", "02-15", "02-26", "4", ""⟩

/-- The same page but with the vessel line moved to 3 lines after the anchor
(just outside the window `range(i, i+3)`). -/
def oneCexLines : List String :=
  ["4 DAY(S)", "junk", "junk2", "MV OCEAN 123A X", "Origin Destination",
   "2026-02-15 2026-02-26"]

/-- A ONE page whose `Origin Destination` marker sits 19 lines after the
anchor (the last index inside the marker window), dates on line 20. -/
def oneMarker19Lines : List String :=
  ["4 DAY(S)", "MV OCEAN 123A X"] ++ List.replicate 17 "." ++
    ["Origin Destination", "2026-02-15 2026-02-26"]

def oneMarker19Rec : Sched := ⟨"ONE", "", "MV OCEAN", "123A", "02-15", "02-26", "4", ""⟩

/-- The same page with the marker pushed to 20 lines after the anchor. -/
def oneMarker20Lines : List String :=
  ["4 DAY(S)", "MV OCEAN 123A X"] ++ List.replicate 18 "." ++
    ["Origin Destination", "2026-02-15 2026-02-26"]

def sitcD218 : PyDate := ⟨2026, 2, 18, by omega, by omega⟩

def sitcD301 : PyDate := ⟨2026, 3, 1, by omega, by omega⟩

/-- The SITC demo worksheet of the spec: header `CBX2 DIRECT SERVICE`,
row-4 metadata `11 days`, one good data row and one SKIP row. -/
def sitcDemoWs : Worksheet :=
  ⟨.cstr "CBX2 DIRECT SERVICE", .cstr "11 days",
   [⟨.cstr "SITC HUIMING", .cstr "2602S", .cdate sitcD218, .cdate sitcD301⟩,
    ⟨.cstr "SKIP ME", .cstr "2603S", .cdate sitcD218, .cdate sitcD301⟩]⟩

def sitcDemoRec : Sched :=
  ⟨"SITC", "CBX2", "SITC HUIMING", "2602S", "02-18", "03-01", "11", "DIRECT"⟩

/-- Month-filter demo records (only the ETD matters to the filter). -/
def recFeb : Sched := ⟨"COSCO", "S", "VF", "1F", "02-15", "", "", ""⟩

def recMar : Sched := ⟨"COSCO", "S", "VM", "1M", "03-01", "", "", ""⟩

def recDec : Sched := ⟨"ONE", "S", "VD", "1D", "12-01", "", "", ""⟩

def recJun : Sched := ⟨"SITC", "S", "VJ", "1J", "06-10", "", "", ""⟩

/-- Claim C5: on a COSCO table with a `Service` header row and the HPX2 data
row-pair of the spec, parse_cosco_pdf yields exactly the one expected record
(carrier COSCO, service HPX2, vessel MTT SENARI, voyage 029S, etd 02-15,
eta 02-26, transit time 11, T/S port Port kelang); the same row-pair with
service `EC3` yields no record. -/
theorem claim_C5 :
    parse_cosco_pdf [coscoDemoTable] = [coscoDemoRec] ∧
    parse_cosco_pdf [coscoEC3Table] = [] := by
  constructor
  · decide
  · decide

/-- Claim C10: a `None` vessel cell is rendered `"None"` by `str()`, which
passes the non-empty filter, so the row is emitted with vessel `"None"`
rather than discarded. -/
theorem claim_C10 :
    parse_cosco_pdf [coscoNullTable] = [coscoNullRec] ∧
    coscoNullRec.vessel = "None" ∧ coscoNullRec.vessel ≠ "" := by
  refine ⟨by decide, rfl, by decide⟩

/-- Claim C1: every record emitted by any of the three extractors has
non-empty vessel, voyage and ETD; a candidate whose extraction leaves any of
the three empty is never emitted (each extractor's final guard). -/
theorem claim_C1 :
    (∀ tables r, r ∈ parse_cosco_pdf tables →
      r.vessel ≠ "" ∧ r.voyage ≠ "" ∧ r.etd ≠ "") ∧
    (∀ pages r, r ∈ parse_one_pdf pages →
      r.vessel ≠ "" ∧ r.voyage ≠ "" ∧ r.etd ≠ "") ∧
    (∀ ws out r, parse_sitc_excel ws = .ok out → r ∈ out →
      r.vessel ≠ "" ∧ r.voyage ≠ "" ∧ r.etd ≠ "") := by
  refine ⟨?_, ?_, ?_⟩
  · intro tables r h
    obtain ⟨-, h1, h2, h3, -, -⟩ := cosco_pdf_mem h
    exact ⟨h1, h2, h3⟩
  · intro pages r h
    obtain ⟨-, h1, h2, h3, -, -⟩ := one_pdf_mem h
    exact ⟨h1, h2, h3⟩
  · intro ws out r h hr
    obtain ⟨-, h1, h2, h3, -, -⟩ := sitc_mem h hr
    exact ⟨h1, h2, h3⟩

theorem claim_C1_witness :
    (coscoDemoRec.vessel ≠ "" ∧ coscoDemoRec.voyage ≠ "" ∧ coscoDemoRec.etd ≠ "") ∧
    (oneDemoRec.vessel ≠ "" ∧ oneDemoRec.voyage ≠ "" ∧ oneDemoRec.etd ≠ "") ∧
    (sitcDemoRec.vessel ≠ "" ∧ sitcDemoRec.voyage ≠ "" ∧ sitcDemoRec.etd ≠ "") :=
  ⟨claim_C1.1 [coscoDemoTable] coscoDemoRec (by decide),
   claim_C1.2.1 [oneDemoLines] oneDemoRec (by decide),
   claim_C1.2.2 sitcDemoWs [sitcDemoRec] sitcDemoRec (by decide) (by decide)⟩

theorem monthCond_start (s : Nat) (hs : 0 < s) (m : Int) :
    monthCond s 0 m = decide ((s : Int) ≤ m) := by
  unfold monthCond
  rw [if_neg (by omega : ¬(0 < s ∧ 0 < 0)), if_pos hs]

theorem monthCond_end (e : Nat) (he : 0 < e) (m : Int) :
    monthCond 0 e m = decide (m ≤ (e : Int)) := by
  unfold monthCond
  rw [if_neg (by omega : ¬(0 < 0 ∧ 0 < e)), if_neg (by omega : ¬(0 < (0 : Nat))),
    if_pos he]

theorem monthCond_between (s e : Nat) (hs : 0 < s) (he : 0 < e) (hse : s ≤ e) (m : Int) :
    monthCond s e m = (decide ((s : Int) ≤ m) && decide (m ≤ (e : Int))) := by
  unfold monthCond
  rw [if_pos ⟨hs, he⟩, if_pos hse]

theorem monthCond_wrap (s e : Nat) (hs : 0 < s) (he : 0 < e) (hse : e < s) (m : Int) :
    monthCond s e m = (decide ((s : Int) ≤ m) || decide (m ≤ (e : Int))) := by
  unfold monthCond
  rw [if_pos ⟨hs, he⟩, if_neg (by omega : ¬(s ≤ e))]

/-- Claim C2: semantics of filter_by_month: no bound returns the dataset
unchanged; a single bound keeps the half-line; both bounds keep the interval
when start ≤ end and the wraparound union when start > end; on records with
ETD months 2 and 3 the bounds (2,2) keep only month 2, and the wraparound
bounds (12,2) keep months 12 and 2 but drop month 6. -/
theorem claim_C2 :
    (∀ df, filterByMonthNum df 0 0 = some df) ∧
    (∀ df s, 0 < s → (∀ r ∈ df, (etdMonth? r.etd).isSome = true) →
      filterByMonthNum df s 0 = some (df.filter fun r => decide ((s : Int) ≤ mOf r))) ∧
    (∀ df e, 0 < e → (∀ r ∈ df, (etdMonth? r.etd).isSome = true) →
      filterByMonthNum df 0 e = some (df.filter fun r => decide (mOf r ≤ (e : Int)))) ∧
    (∀ df s e, 0 < s → 0 < e → s ≤ e → (∀ r ∈ df, (etdMonth? r.etd).isSome = true) →
      filterByMonthNum df s e =
        some (df.filter fun r => decide ((s : Int) ≤ mOf r) && decide (mOf r ≤ (e : Int)))) ∧
    (∀ df s e, 0 < s → 0 < e → e < s → (∀ r ∈ df, (etdMonth? r.etd).isSome = true) →
      filterByMonthNum df s e =
        some (df.filter fun r => decide ((s : Int) ≤ mOf r) || decide (mOf r ≤ (e : Int)))) ∧
    filterByMonthNum [recFeb, recMar] 2 2 = some [recFeb] ∧
    filterByMonthNum [recDec, recFeb, recJun] 12 2 = some [recDec, recFeb] ∧
    (∀ df, filter_by_month df "All" "All" = some df) ∧
    (∀ df, filter_by_month df "December" "February" = filterByMonthNum df 12 2) := by
  refine ⟨?_, ?_, ?_, ?_, ?_, by decide, by decide, ?_, fun df => rfl⟩
  case refine_6 =>
    intro df
    rw [filter_by_month]
    show filterByMonthNum df 0 0 = some df
    rw [filterByMonthNum]
    split
    · rfl
    · rw [if_pos ⟨rfl, rfl⟩]
  · intro df
    rw [filterByMonthNum]
    split
    · rfl
    · rw [if_pos ⟨rfl, rfl⟩]
  · intro df s hs h
    rw [filterByMonthNum_eq (by omega) h]
    congr 1
    exact List.filter_congr fun r _ => monthCond_start s hs (mOf r)
  · intro df e he h
    rw [filterByMonthNum_eq (by omega) h]
    congr 1
    exact List.filter_congr fun r _ => monthCond_end e he (mOf r)
  · intro df s e hs he hse h
    rw [filterByMonthNum_eq (by omega) h]
    congr 1
    exact List.filter_congr fun r _ => monthCond_between s e hs he hse (mOf r)
  · intro df s e hs he hse h
    rw [filterByMonthNum_eq (by omega) h]
    congr 1
    exact List.filter_congr fun r _ => monthCond_wrap s e hs he hse (mOf r)

theorem claim_C2_witness :
    filterByMonthNum [recFeb, recMar] 2 0 =
      some ([recFeb, recMar].filter fun r => decide ((2 : Int) ≤ mOf r)) :=
  claim_C2.2.1 [recFeb, recMar] 2 (by omega) (by decide)

/-- The SITC normalizer returns a value (does not raise). -/
def exOk : Except Unit String → Bool
  | .ok _ => true
  | .error _ => false

/-- Claim C4 (amended): the SITC normalizer maps the day-serial of
2026-02-15 (46068 from epoch 1899-12-30) to `02-15` and never raises on
serials whose date lands in Python's year range, on text, on date values or
on `None`; its text branch requires a contiguous `YYYY-MM-DD`, so the
whitespace-embedded `2026- 02- 15` yields `""` there, while the COSCO
extractor's own pattern (the only whitespace-tolerant one) reduces the same
text to `02-15`; unrecognized text yields `""`. -/
theorem claim_C4 :
    (daysFromCivil 2026 2 15 - daysFromCivil 1899 12 30 = 46068 ∧
      sitcNormDate (.cint 46068) = .ok "02-15") ∧
    (∀ n : Int, -693593 ≤ n → n ≤ 2958465 → exOk (sitcNormDate (.cint n)) = true) ∧
    (∀ s : String, exOk (sitcNormDate (.cstr s)) = true) ∧
    (∀ dt : PyDate, exOk (sitcNormDate (.cdate dt)) = true) ∧
    exOk (sitcNormDate .cnone) = true ∧
    sitcNormDate (.cstr "2026- 02- 15") = .ok "" ∧
    coscoSearch "2026- 02- 15".data = some "02-15".data ∧
    sitcNormDate (.cstr "hello world") = .ok "" := by
  refine ⟨by decide, ?_, ?_, fun dt => rfl, rfl, by decide, by decide, by decide⟩
  · intro n h1 h2
    rw [sitcNormDate]
    split_ifs with hz
    · rfl
    · cases hp : pyDateAdd? n with
      | none =>
        have := pyDateAdd?_isSome n h1 h2
        rw [hp] at this
        simp at this
      | some md => rfl
  · intro s
    rw [sitcNormDate]
    split_ifs
    · rfl
    · rfl

theorem claim_C4_witness :
    exOk (sitcNormDate (.cint 46068)) = true ∧
    exOk (sitcNormDate (.cstr "anything")) = true :=
  ⟨claim_C4.2.1 46068 (by norm_num) (by norm_num), claim_C4.2.2.1 "anything"⟩

/-- Claim C4 fails as stated: the extractors share no whitespace-tolerant
date normalizer.  The SITC normalizer (the only one handling day-serials) is
given the spec's whitespace-embedded text and returns `""`, not `02-15`. -/
theorem claim_C4_counterexample :
    sitcNormDate (.cstr "2026- 02- 15") = .ok "" ∧
    sitcNormDate (.cstr "2026- 02- 15") ≠ .ok "02-15" := by
  refine ⟨by decide, by decide⟩

/-- The tab1 upload handler of app.py: a single `try` wraps the WHOLE
per-file loop, with `all_schedules.extend(schedules)` accumulating inside
it.  Each file's dispatch-and-parse outcome is supplied as an `Except` value
(the auto-detect path's internal COSCO-to-ONE fallback happens inside that
outcome); an exception escaping any file's parse aborts the loop, and the
handler's `except` branch stores nothing, discarding records already
collected from earlier files. -/
def appProcessFiles : List (Except Unit (List Sched)) → Except Unit (List Sched)
  | [] => .ok []
  | f :: fs =>
    match f with
    | .error e => .error e
    | .ok s =>
      match appProcessFiles fs with
      | .error e => .error e
      | .ok rest => .ok (s ++ rest)

/-- Claim C6 fails on the app.py path it cites: in the tab1 handler a batch
whose first file raises yields no records at all -- the second file, which
alone parses to a record, is never processed -- and any failing file aborts
the whole batch.  In process_schedules (which the app never calls) the
claimed behaviour does hold: the per-file `except` turns the failure into an
empty contribution and the remaining files are processed as if the failed
file were absent. -/
theorem claim_C6 :
    appProcessFiles [.error (), .ok [oneDemoRec]] = .error () ∧
    appProcessFiles [.ok [oneDemoRec]] = .ok [oneDemoRec] ∧
    (∀ post : List (Except Unit (List Sched)),
      appProcessFiles (.error () :: post) = .error ()) ∧
    (∀ pre post : List (Except Unit (List Sched)),
      allSchedules (pre ++ .error () :: post) = allSchedules pre ++ allSchedules post ∧
      allSchedules (pre ++ .error () :: post) = allSchedules (pre ++ post)) := by
  refine ⟨rfl, rfl, fun post => rfl, ?_⟩
  intro pre post
  constructor <;> simp [allSchedules, fileContribution]

/-- Claim C7: with deduplication on, a record present in two extractor
outputs survives exactly once, the result is a subsequence of the merged
input (order preserved), the first occurrence is the one kept, and with
deduplication off both copies appear. -/
theorem claim_C7 :
    (∀ xs ys (r : Sched), r ∈ xs → r ∈ ys → (mergeSchedules [xs, ys] true).count r = 1) ∧
    (∀ xs ys : List Sched, (mergeSchedules [xs, ys] true).Sublist (xs ++ ys)) ∧
    mergeSchedules [[recFeb, recMar], [recFeb]] true = [recFeb, recMar] ∧
    mergeSchedules [[recFeb, recMar], [recFeb]] false = [recFeb, recMar, recFeb] := by
  refine ⟨?_, ?_, by decide, by decide⟩
  · intro xs ys r hx hy
    have hflat : ([xs, ys] : List (List Sched)).flatten = xs ++ ys := by simp
    rw [mergeSchedules, if_pos rfl, hflat]
    exact dropDup_count_one _ [] (by simp) (by simp [hx])
  · intro xs ys
    have hflat : ([xs, ys] : List (List Sched)).flatten = xs ++ ys := by simp
    rw [mergeSchedules, if_pos rfl, hflat]
    exact dropDup_sublist _ []

theorem claim_C7_witness :
    (mergeSchedules [[recFeb, recMar], [recFeb]] true).count recFeb = 1 :=
  claim_C7.1 [recFeb, recMar] [recFeb] recFeb (by decide) (by decide)

/-- Claim C8 (amended): the fallback vessel scan covers `range(i, i+3)` --
the anchor line plus the next TWO lines (the anchor line itself cannot match
the fallback shape, which must start with a capital); the marker searches
cover `range(i, i+20)` -- the anchor line plus the next NINETEEN lines; and
line content at offset 21 or farther never affects the entry.  Concretely: a
fallback vessel line at offset 2 is found and at offset 3 is not; an
`Origin Destination` marker at offset 19 takes effect and at offset 20 does
not. -/
theorem claim_C8 :
    (∀ i len, i + 3 ≤ len → windowIdxs i len 3 = [i, i + 1, i + 2]) ∧
    (∀ i len, i + 20 ≤ len → windowIdxs i len 20 = List.range' i 20) ∧
    (∀ lines extra i, i + 21 ≤ lines.length →
      oneEntryAt (lines ++ extra) i = oneEntryAt lines i) ∧
    parse_one_page oneFallbackLines = [oneFallbackRec] ∧
    parse_one_page oneCexLines = [] ∧
    parse_one_page oneMarker19Lines = [oneMarker19Rec] ∧
    parse_one_page oneMarker20Lines = [] := by
  refine ⟨?_, ?_, fun lines extra i h => oneEntryAt_frame lines extra i h,
    by decide, by decide, by decide, by decide⟩
  · intro i len h
    rw [windowIdxs_small i len 3 h]
    rfl
  · intro i len h
    exact windowIdxs_small i len 20 h

theorem claim_C8_witness :
    windowIdxs 0 21 3 = [0, 1, 2] ∧
    oneEntryAt (oneMarker19Lines ++ ["EXTRA LINE"]) 0 = oneEntryAt oneMarker19Lines 0 :=
  ⟨claim_C8.1 0 21 (by omega), claim_C8.2.2.1 oneMarker19Lines ["EXTRA LINE"] 0 (by decide)⟩

/-- Claim C8 fails as stated: an anchor line without the `Vessel / Voyage`
label whose vessel/voyage-shaped line sits exactly 3 lines after the anchor
(the last line the claim's `next 3 lines` window would reach) yields no
record, because the code scans `range(i, i+3)`, i.e. only the next 2 lines. -/
theorem claim_C8_counterexample :
    (anchorDigits? (stripChars (oneCexLines.getD 0 "").data)).isSome = true ∧
    hasSub "Vessel / Voyage".data (stripChars (oneCexLines.getD 0 "").data) = false ∧
    (vvPre? (stripChars (oneCexLines.getD 3 "").data)).isSome = true ∧
    parse_one_page oneCexLines = [] := by
  refine ⟨by decide, by decide, by decide, by decide⟩

/-- Claim C9: all extractor output dates are `MM-DD` shaped (ETA when
non-empty), and the month filter's `int()` conversion cannot fail on them. -/
theorem claim_C9 :
    (∀ tables r, r ∈ parse_cosco_pdf tables → isMMDD r.etd = true ∧
      (r.eta ≠ "" → isMMDD r.eta = true) ∧ (etdMonth? r.etd).isSome = true) ∧
    (∀ pages r, r ∈ parse_one_pdf pages → isMMDD r.etd = true ∧
      (r.eta ≠ "" → isMMDD r.eta = true) ∧ (etdMonth? r.etd).isSome = true) ∧
    (∀ ws out r, parse_sitc_excel ws = .ok out → r ∈ out → isMMDD r.etd = true ∧
      (r.eta ≠ "" → isMMDD r.eta = true) ∧ (etdMonth? r.etd).isSome = true) ∧
    (∀ df : List Sched, (∀ r ∈ df, (etdMonth? r.etd).isSome = true) →
      ∀ s e, (filterByMonthNum df s e).isSome = true) := by
  refine ⟨?_, ?_, ?_, ?_⟩
  · intro tables r h
    obtain ⟨-, -, -, -, h5, h6⟩ := cosco_pdf_mem h
    exact ⟨h5, h6, mmdd_etdMonth h5⟩
  · intro pages r h
    obtain ⟨-, -, -, -, h5, h6⟩ := one_pdf_mem h
    exact ⟨h5, h6, mmdd_etdMonth h5⟩
  · intro ws out r h hr
    obtain ⟨-, -, -, -, h5, h6⟩ := sitc_mem h hr
    exact ⟨h5, h6, mmdd_etdMonth h5⟩
  · intro df h s e
    by_cases h1 : df.isEmpty
    · rw [filterByMonthNum, if_pos h1]
      rfl
    · by_cases h2 : s = 0 ∧ e = 0
      · rw [filterByMonthNum, if_neg (by simpa using h1), if_pos h2]
        rfl
      · rw [filterByMonthNum_eq h2 h]
        rfl

theorem claim_C9_witness :
    (isMMDD coscoDemoRec.etd = true ∧ (coscoDemoRec.eta ≠ "" → isMMDD coscoDemoRec.eta = true) ∧
      (etdMonth? coscoDemoRec.etd).isSome = true) ∧
    (filterByMonthNum [recFeb] 5 0).isSome = true :=
  ⟨claim_C9.1 [coscoDemoTable] coscoDemoRec (by decide),
   claim_C9.2.2.2 [recFeb] (by decide) 5 0⟩
